import Mathlib

/-!
Shallow embedding of the message-to-record extraction and spreadsheet pipeline
in `slack_spreadsheet.py`.

Modelling conventions:
* Python text is modelled as `String` (or `List Char` inside the character
  scanners that embed the regular-expression searches).
* JSON values returned by `json.loads` are modelled by `JVal`; a Python dict
  is an association list with distinct keys (as produced by `json.loads`),
  `dget`/`dset` embed `dict.get` / `dict.__setitem__` (first-match lookup).
* Calls to external services (OpenAI, the Slack channel-info lookup, gspread)
  are oracled: the theorems quantify over every possible response.  The OpenAI
  profile call receives a *list* of per-attempt responses so that the number
  of attempts the code makes is observable in the model; the code under
  `src/` performs exactly one call per inbound message.
* A gspread worksheet is its list of rows (cells are the displayed strings);
  the spreadsheet is an association list from worksheet title to worksheet.
* `re.sub(r"\D", "", s)` is modelled over ASCII decimal digits, which covers
  every value the claims mention.
-/

set_option autoImplicit false

namespace SlackSpreadsheet

/-- JSON-like values, as returned by `json.loads` on the service response. -/
inductive JVal where
  | jstr (s : String)
  | jnum (n : Int)
  | jbool (b : Bool)
  | jnull
  | jarr (xs : List JVal)
  | jobj (kvs : List (String × JVal))

/-- `dict.get k` / `k in dict`: first-match lookup in the association list. -/
def dget (kvs : List (String × JVal)) (k : String) : Option JVal :=
  match kvs with
  | [] => none
  | (k2, v) :: rest => if k2 = k then some v else dget rest k

/-- `dict.get(k, d)`: lookup with a default. -/
def dgetD (kvs : List (String × JVal)) (k : String) (d : JVal) : JVal :=
  (dget kvs k).getD d

/-- `dict[k] = v`: replace the binding for `k`, or append it if absent. -/
def dset (kvs : List (String × JVal)) (k : String) (v : JVal) : List (String × JVal) :=
  match kvs with
  | [] => [(k, v)]
  | (k2, v2) :: rest => if k2 = k then (k2, v) :: rest else (k2, v2) :: dset rest k v

mutual

/-- `json.dumps(v, ensure_ascii=False)` with the default separators
(`", "` and `": "`).  String escaping is not modelled: the values in scope
contain no quote, backslash or control characters. -/
def dumps : JVal → String
  | .jstr s => "\"" ++ s ++ "\""
  | .jnum n => toString n
  | .jbool b => if b then "true" else "false"
  | .jnull => "null"
  | .jarr xs => "[" ++ dumpsList xs ++ "]"
  | .jobj kvs => "\x7b" ++ dumpsObj kvs ++ "\x7d"

def dumpsList : List JVal → String
  | [] => ""
  | [x] => dumps x
  | x :: y :: rest => dumps x ++ ", " ++ dumpsList (y :: rest)

def dumpsObj : List (String × JVal) → String
  | [] => ""
  | [(k, v)] => "\"" ++ k ++ "\": " ++ dumps v
  | (k, v) :: p :: rest => "\"" ++ k ++ "\": " ++ dumps v ++ ", " ++ dumpsObj (p :: rest)

end

/-- Python `str(v)` for the scalar values reachable on the `str(exp_data)`
path of `parse_profile_info` (lists and dicts are serialized with
`json.dumps` before `str` is ever reached, so the catch-all is unreachable
there). -/
def pyStr : JVal → String
  | .jstr s => s
  | .jnum n => toString n
  | .jbool b => if b then "True" else "False"
  | .jnull => "None"
  | v => dumps v

/-- The string a cell displays after a value is appended with
`value_input_option="USER_ENTERED"`; every value the pipeline writes on the
paths the claims exercise is already a string. -/
def cellStr : JVal → String
  | .jstr s => s
  | .jnum n => toString n
  | .jbool b => if b then "TRUE" else "FALSE"
  | .jnull => ""
  | v => dumps v

/-- Python truthiness of a JSON value (`if merged_data["name"] or ...`). -/
def truthy : JVal → Bool
  | .jstr s => !(s == "")
  | .jnum n => !(n == 0)
  | .jbool b => b
  | .jnull => false
  | .jarr xs => !xs.isEmpty
  | .jobj kvs => !kvs.isEmpty

/-- `re.sub(r"\D", "", s)`: keep only decimal digits (ASCII range, which
covers every value in scope). -/
def digitsOnly (s : String) : String :=
  String.mk (s.data.filter fun c => c.isDigit)

/-- Characters removed by Python `str.strip()` (the whitespace characters
that occur in chat text: ASCII whitespace, NBSP and the ideographic space). -/
def pyWs (c : Char) : Bool :=
  c == ' ' || c == '\t' || c == '\n' || c == '\r' ||
    c.toNat == 11 || c.toNat == 12 || c.toNat == 160 || c.toNat == 0x3000

/-- Python `str.strip()`. -/
def trimChars (s : List Char) : List Char :=
  ((s.dropWhile pyWs).reverse.dropWhile pyWs).reverse

/-- `"needle" in hay` (Python substring containment). -/
def containsSub (needle : List Char) : List Char → Bool
  | [] => needle.isEmpty
  | c :: rest => needle.isPrefixOf (c :: rest) || containsSub needle rest

/-! ### `extract_hospital_name` — the regex `r"【([^】]+)】"` -/

/-- The characters before the first `'】'`, when a `'】'` occurs. -/
def upToClose : List Char → Option (List Char)
  | [] => none
  | c :: rest => if c = '】' then some [] else (upToClose rest).map (c :: ·)

/-- `re.search(r"【([^】]+)】", text)`: at each start position in turn, an
opening bracket followed by a nonempty run of non-`'】'` characters and a
closing bracket matches; an empty run fails the position and the search
moves one character to the right. -/
def findBracketSeg : List Char → Option (List Char)
  | [] => none
  | c :: rest =>
    if c = '【' then
      match upToClose rest with
      | some seg => if seg = [] then findBracketSeg rest else some seg
      | none => none
    else findBracketSeg rest

/-- `if raw_name.endswith("様"): raw_name = raw_name[:-1]`. -/
def stripSama (s : List Char) : List Char :=
  match s.getLast? with
  | some c => if c = '様' then s.dropLast else s
  | none => s

/-- `extract_hospital_name` (lines 69-78). -/
def extract_hospital_name (text : List Char) : List Char :=
  match findBracketSeg text with
  | none => []
  | some seg => stripSama (trimChars seg)

/-! ### `extract_media_name` — the regex `r"(.+?)より(.+?)の応募がございました。"` -/

def yori : List Char := ['よ', 'り']

def mediaTail : List Char := "の応募がございました。".data

/-- Whether `(.+?)の応募がございました。` matches a prefix of `s`: some
nonempty run of non-newline characters followed by the literal tail. -/
def checkTail : List Char → Bool
  | [] => false
  | c :: rest => !(c == '\n') && (mediaTail.isPrefixOf rest || checkTail rest)

/-- The lazy group `(.+?)` before `より`, at a fixed start position:
`acc` is the (reversed, nonempty) group so far; the group is extended one
non-newline character at a time until `より` followed by a matching tail is
found. -/
def g1Scan : List Char → List Char → Option (List Char)
  | acc, c :: rest =>
    if yori.isPrefixOf (c :: rest) && checkTail ((c :: rest).drop 2) then
      some acc.reverse
    else if c = '\n' then none
    else g1Scan (c :: acc) rest
  | _, [] => none

/-- `re.search` for the media-name pattern: try every start position from the
left; the first group must begin with a non-newline character. -/
def mediaSearch : List Char → Option (List Char)
  | [] => none
  | c :: rest =>
    if c = '\n' then mediaSearch rest
    else
      match g1Scan [c] rest with
      | some g1 => some g1
      | none => mediaSearch rest

/-- `parse_media_name_with_gpt` (lines 83-114): `svc = none` models the API
call raising (the `except` branch returns `""`), `svc = some content` models
a successful response, whose content the code strips. -/
def parse_media_name_with_gpt (apiKey : Bool) (svc : Option (List Char)) : List Char :=
  if !apiKey then []
  else
    match svc with
    | none => []
    | some content => trimChars content

/-- `extract_media_name` (lines 120-127). -/
def extract_media_name (apiKey : Bool) (svc : Option (List Char)) (text : List Char) :
    List Char :=
  match mediaSearch text with
  | some g1 => trimChars g1
  | none => parse_media_name_with_gpt apiKey svc

/-! ### `parse_profile_info` -/

/-- One OpenAI chat-completion attempt, as observed by `parse_profile_info`:
the call raises (`fail`), returns content `json.loads` rejects (`notJson`),
or returns content that parses to the JSON value `v`. -/
inductive SvcResult where
  | fail
  | notJson
  | parsed (v : JVal)

/-- The nine schema fields of `parse_profile_info`'s output dict
(lines 178-188), in source order. -/
def profileFields : List String :=
  ["name", "member_id", "age", "job", "experience", "address", "status", "cert", "education"]

/-- Lines 172-176: `json.dumps` when the experience value came back as a
list or dict, `str` otherwise. -/
def expFlatten : JVal → String
  | .jarr xs => dumps (.jarr xs)
  | .jobj es => dumps (.jobj es)
  | w => pyStr w

/-- Lines 167-188 of `parse_profile_info`, the post-processing of a parsed
response object: digit-strip the age, flatten the experience value to a
string, then build the output dict from the nine schema fields with
`extracted_data.get(k, "")`. -/
def profilePost (kvs : List (String × JVal)) (ageS : String) : List (String × JVal) :=
  let kvs1 := dset kvs "age" (.jstr (digitsOnly ageS))
  let kvs2 := dset kvs1 "experience" (.jstr (expFlatten (dgetD kvs1 "experience" (.jstr ""))))
  profileFields.map fun k => (k, dgetD kvs2 k (.jstr ""))

/-- `parse_profile_info` (lines 133-191).  `svc` lists the response each
successive OpenAI attempt would get; the code makes a single attempt, so only
the head is ever consulted.  Every failure (`fail`, `notJson`, a non-object
JSON value, or a non-string `age` value, which makes `re.sub` raise) is
caught by the `except` clause and yields the empty dict `{}`. -/
def parse_profile_info (apiKey : Bool) (svc : List SvcResult) : List (String × JVal) :=
  if !apiKey then []
  else
    match svc.headD .fail with
    | .fail => []
    | .notJson => []
    | .parsed v =>
      match v with
      | .jobj kvs =>
        match dgetD kvs "age" (.jstr "") with
        | .jstr ageS => profilePost kvs ageS
        | _ => []
      | _ => []

/-! ### Worksheets: `ensure_header`, `get_or_create_worksheet`, `write_to_spreadsheet` -/

/-- A worksheet is its list of rows; each cell is the string it displays. -/
abbrev Worksheet := List (List String)

/-- The spreadsheet: worksheets by title. -/
abbrev Sheets := List (String × Worksheet)

/-- The eleven header labels of `ensure_header` and
`get_or_create_worksheet` (both functions list the identical literal), which
are also the eleven keys `write_to_spreadsheet` reads, in column order. -/
def expectedHeader : List String :=
  ["hospital_name", "media_name", "name", "member_id", "age", "job", "experience",
    "address", "status", "cert", "education"]

/-- First-match worksheet lookup (`sh.worksheet(title)`). -/
def lookupSheet (sheets : Sheets) (title : String) : Option Worksheet :=
  match sheets with
  | [] => none
  | (t, w) :: rest => if t = title then some w else lookupSheet rest title

/-- Store a worksheet back under its title (append when the title is new). -/
def setSheet (sheets : Sheets) (title : String) (w : Worksheet) : Sheets :=
  match sheets with
  | [] => [(title, w)]
  | (t, w2) :: rest => if t = title then (t, w) :: rest else (t, w2) :: setSheet rest title w

/-- `worksheet.row_values(1)`: the first row with trailing empty cells
removed. -/
def rowValues1 (ws : Worksheet) : List String :=
  ((ws.headD []).reverse.dropWhile (· = "")).reverse

/-- `worksheet.update('A1:K1', [expected_header])`: overwrite the first
eleven cells of row 1, leaving any further cells of that row and all other
rows untouched. -/
def updateA1K1 (ws : Worksheet) : Worksheet :=
  (expectedHeader ++ (ws.headD []).drop 11) :: ws.tail

/-- `ensure_header` (lines 196-219). -/
def ensure_header (ws : Worksheet) : Worksheet :=
  if rowValues1 ws = expectedHeader then ws else updateA1K1 ws

/-- `get_or_create_worksheet` (lines 224-257): look the title up; when it is
absent, add a blank worksheet and append the header row; in either case run
`ensure_header`.  Returns the worksheet handle together with the updated
spreadsheet. -/
def get_or_create_worksheet (sheets : Sheets) (title : String) : Worksheet × Sheets :=
  match lookupSheet sheets title with
  | some ws =>
    let ws2 := ensure_header ws
    (ws2, setSheet sheets title ws2)
  | none =>
    let ws2 := ensure_header [expectedHeader]
    (ws2, sheets ++ [(title, ws2)])

/-- The row `write_to_spreadsheet` appends (lines 278-290): `data.get(k, "")`
for the eleven header keys in column order. -/
def newRowOf (data : List (String × JVal)) : List String :=
  expectedHeader.map fun k => cellStr (dgetD data k (.jstr ""))

/-- `data.get("channel_name", "UnknownChannel")`, coerced to the worksheet
title string. -/
def sheetTitleOf (data : List (String × JVal)) : String :=
  match dget data "channel_name" with
  | some v => cellStr v
  | none => "UnknownChannel"

/-- `write_to_spreadsheet` (lines 262-291).  `fault = some e` models any of
the gspread calls of this function raising with message `e` (the function
catches nothing and retries nothing, so the exception is surfaced and no row
is recorded); `fault = none` is the fault-free run. -/
def write_to_spreadsheet (fault : Option String) (sheets : Sheets)
    (data : List (String × JVal)) : Except String Sheets :=
  match fault with
  | some e => Except.error e
  | none =>
    let title := sheetTitleOf data
    let p := get_or_create_worksheet sheets title
    Except.ok (setSheet p.2 title (p.1 ++ [newRowOf data]))

/-! ### `handle_message_events` -/

/-- What one run of `handle_message_events` does, besides its final
spreadsheet state: nothing (text not triggered), an uncaught `KeyError` on
`merged_data[key]` escaping the handler, a silent exit (no write, no reply),
or a threaded reply (`say`) with the given text after a write attempt. -/
inductive Outcome where
  | notTriggered
  | keyErr (key : String)
  | silent
  | ackSuccess (msg : String)
  | ackFailure (msg : String)

def triggerText : String := "応募がございました。"

def successMsg : String := "スプレッドシート書き込みが完了しました。"

def sayFailText : String := "スプレッドシートへの書き込みでエラー: "

/-- `merged_data = {"hospital_name": ..., "media_name": ..., **parsed_profile}`
(lines 309-313).  The keys of `parsed_profile` are always among the nine
`profileFields`, which do not contain `hospital_name` or `media_name`, so the
Python dict spread is plain concatenation here. -/
def buildMergedData (hosp media : List Char) (parsed : List (String × JVal)) :
    List (String × JVal) :=
  ("hospital_name", JVal.jstr (String.mk hosp)) ::
    ("media_name", JVal.jstr (String.mk media)) :: parsed

/-- The merged record of a triggered message, after the channel-name lookup:
`chanLookup = none` models `conversations_info` raising (the handler falls
back to `"UnknownChannel"`), `some name` a successful lookup. -/
def mergedRecord (text : String) (chanLookup : Option String) (apiKey : Bool)
    (profSvc : List SvcResult) (mediaSvc : Option (List Char)) : List (String × JVal) :=
  dset
    (buildMergedData (extract_hospital_name text.data)
      (extract_media_name apiKey mediaSvc text.data)
      (parse_profile_info apiKey profSvc))
    "channel_name" (JVal.jstr (chanLookup.getD "UnknownChannel"))

/-- The `try: write_to_spreadsheet(...) ... except` block (lines 326-342). -/
def runWrite (fault : Option String) (sheets : Sheets) (merged : List (String × JVal)) :
    Outcome × Sheets :=
  match write_to_spreadsheet fault sheets merged with
  | Except.ok s2 => (Outcome.ackSuccess successMsg, s2)
  | Except.error e => (Outcome.ackFailure (sayFailText ++ e), sheets)

/-- `handle_message_events` (lines 296-342).  `merged_data["name"]` and
`merged_data["member_id"]` are bare subscripts: a missing key raises a
`KeyError` that nothing in the handler catches. -/
def handle_message_events (text : String) (chanLookup : Option String) (apiKey : Bool)
    (profSvc : List SvcResult) (mediaSvc : Option (List Char)) (fault : Option String)
    (sheets : Sheets) : Outcome × Sheets :=
  if containsSub triggerText.data text.data then
    let merged := mergedRecord text chanLookup apiKey profSvc mediaSvc
    match dget merged "name" with
    | none => (Outcome.keyErr "name", sheets)
    | some nameV =>
      if truthy nameV then runWrite fault sheets merged
      else
        match dget merged "member_id" with
        | none => (Outcome.keyErr "member_id", sheets)
        | some memberV =>
          if truthy memberV then runWrite fault sheets merged
          else (Outcome.silent, sheets)
  else (Outcome.notTriggered, sheets)

theorem dget_dset_self (kvs : List (String × JVal)) (k : String) (v : JVal) :
    dget (dset kvs k v) k = some v := by
  induction kvs with
  | nil => simp [dset, dget]
  | cons p rest ih =>
    by_cases h : p.1 = k
    · simp [dset, dget, h]
    · simp [dset, dget, h, ih]

theorem dget_dset_ne (kvs : List (String × JVal)) (k k2 : String) (v : JVal)
    (h : k2 ≠ k) : dget (dset kvs k v) k2 = dget kvs k2 := by
  induction kvs with
  | nil =>
    simp only [dset, dget]
    rw [if_neg fun hh => h hh.symm]
  | cons p rest ih =>
    obtain ⟨k1, v1⟩ := p
    by_cases hp : k1 = k
    · subst hp
      simp only [dset, if_pos rfl, dget]
      rw [if_neg fun hh => h hh.symm, if_neg fun hh => h hh.symm]
    · simp [dset, dget, hp, ih]

theorem parse_profile_single (key : Bool) (r : SvcResult) (rest : List SvcResult) :
    parse_profile_info key (r :: rest) = parse_profile_info key [r] := rfl

theorem parse_profile_fail (key : Bool) (rest : List SvcResult) :
    parse_profile_info key (.fail :: rest) = [] := by
  cases key <;> rfl

theorem parse_profile_success (kvs : List (String × JVal)) (rest : List SvcResult)
    (s : String) (hAge : dgetD kvs "age" (.jstr "") = .jstr s) :
    parse_profile_info true (.parsed (.jobj kvs) :: rest) = profilePost kvs s := by
  show (match dgetD kvs "age" (.jstr "") with
    | .jstr ageS => profilePost kvs ageS
    | _ => ([] : List (String × JVal))) = profilePost kvs s
  rw [hAge]

theorem dget_fieldsMap (f : String → JVal) (k : String) (hk : k ∈ profileFields) :
    dget (profileFields.map fun k2 => (k2, f k2)) k = some (f k) := by
  fin_cases hk <;> rfl

theorem fieldsMap_keys (f : String → JVal) :
    (profileFields.map fun k2 => (k2, f k2)).map Prod.fst = profileFields := by
  simp [Function.comp_def]

theorem dget_profilePost_age (kvs : List (String × JVal)) (s : String) :
    dget (profilePost kvs s) "age" = some (.jstr (digitsOnly s)) := by
  unfold profilePost
  rw [dget_fieldsMap _ _ (by decide)]
  rw [show dgetD (dset (dset kvs "age" (.jstr (digitsOnly s))) "experience"
      (.jstr (expFlatten (dgetD (dset kvs "age" (.jstr (digitsOnly s))) "experience"
        (.jstr ""))))) "age" (.jstr "") = .jstr (digitsOnly s) from by
    unfold dgetD
    rw [dget_dset_ne _ _ _ _ (by decide), dget_dset_self]
    rfl]

theorem dget_profilePost_member (kvs : List (String × JVal)) (s : String) :
    dget (profilePost kvs s) "member_id" = some (dgetD kvs "member_id" (.jstr "")) := by
  unfold profilePost
  rw [dget_fieldsMap _ _ (by decide)]
  unfold dgetD
  rw [dget_dset_ne _ _ _ _ (by decide), dget_dset_ne _ _ _ _ (by decide)]

theorem dget_profilePost_exp (kvs : List (String × JVal)) (s : String) (v : JVal)
    (hv : dget kvs "experience" = some v) :
    dget (profilePost kvs s) "experience" = some (.jstr (expFlatten v)) := by
  unfold profilePost
  rw [dget_fieldsMap _ _ (by decide)]
  unfold dgetD
  rw [dget_dset_self]
  rw [show dget (dset kvs "age" (.jstr (digitsOnly s))) "experience" = some v from by
    rw [dget_dset_ne _ _ _ _ (by decide), hv]]
  rfl

theorem dget_mergedRecord (text : String) (chan : Option String) (key : Bool)
    (prof : List SvcResult) (media : Option (List Char)) (k : String)
    (h1 : k ≠ "channel_name") (h2 : k ≠ "hospital_name") (h3 : k ≠ "media_name") :
    dget (mergedRecord text chan key prof media) k = dget (parse_profile_info key prof) k := by
  unfold mergedRecord buildMergedData
  rw [dget_dset_ne _ _ _ _ h1]
  simp only [dget]
  rw [if_neg fun hh => h2 hh.symm, if_neg fun hh => h3 hh.symm]

theorem dget_mergedRecord_channel (text : String) (chan : Option String) (key : Bool)
    (prof : List SvcResult) (media : Option (List Char)) :
    dget (mergedRecord text chan key prof media) "channel_name" =
      some (JVal.jstr (chan.getD "UnknownChannel")) := by
  unfold mergedRecord
  rw [dget_dset_self]

/-- C1, counterexample: after a failed first attempt `parse_profile_info` does not
retry (a successful second response is never consulted is shown by the amended
theorem; here both attempts fail) and returns the empty mapping `{}` rather than
a record with every schema field set to the empty string. -/
theorem parse_profile_no_retry_counterexample :
    parse_profile_info true [SvcResult.fail, SvcResult.fail] = [] ∧
    parse_profile_info true [SvcResult.fail, SvcResult.fail] ≠
      profileFields.map fun k => (k, JVal.jstr "") := by
  refine ⟨rfl, ?_⟩
  rw [parse_profile_fail]
  intro h
  simp [profileFields] at h

/-- C1 (amended): `parse_profile_info` makes exactly one service attempt (the
response list beyond its head is never consulted), a failed attempt yields the
empty mapping with no schema fields, and the trigger handler then raises
`KeyError("name")` on `merged_data["name"]`, so extraction failure aborts the
pipeline run for a triggered message instead of degrading. -/
theorem parse_profile_single_attempt_failure_aborts :
    (∀ (key : Bool) (r : SvcResult) (rest : List SvcResult),
      parse_profile_info key (r :: rest) = parse_profile_info key [r]) ∧
    (∀ (key : Bool) (rest : List SvcResult),
      parse_profile_info key (SvcResult.fail :: rest) = []) ∧
    (∀ (text : String) (chan : Option String) (key : Bool) (rest : List SvcResult)
      (mediaSvc : Option (List Char)) (fault : Option String) (sheets : Sheets),
      containsSub triggerText.data text.data = true →
      handle_message_events text chan key (SvcResult.fail :: rest) mediaSvc fault sheets =
        (Outcome.keyErr "name", sheets)) := by
  refine ⟨parse_profile_single, parse_profile_fail, ?_⟩
  intro text chan key rest mediaSvc fault sheets htrig
  unfold handle_message_events
  rw [if_pos htrig]
  have hname : dget (mergedRecord text chan key (SvcResult.fail :: rest) mediaSvc) "name" =
      none := by
    rw [dget_mergedRecord _ _ _ _ _ _ (by decide) (by decide) (by decide), parse_profile_fail]
    rfl
  simp only [hname]

/-- C1 witness: a concrete triggered message whose extraction fails ends the
handler in the uncaught `KeyError("name")` outcome. -/
theorem parse_profile_single_attempt_failure_aborts_witness :
    handle_message_events "応募がございました。" none true [SvcResult.fail] none none [] =
      (Outcome.keyErr "name", []) :=
  parse_profile_single_attempt_failure_aborts.2.2 "応募がございました。" none true [] none none
    [] rfl

/-- C2, counterexample: on the failure path `parse_profile_info` returns `{}`,
which omits the schema field `name` (and every other field) from the output
mapping. -/
theorem parse_profile_failure_omits_fields :
    dget (parse_profile_info true [SvcResult.fail]) "name" = none := rfl

/-- C2 (amended): on the success path the output mapping of
`parse_profile_info` has exactly the nine schema field names as keys, in order;
on the failure path it is the empty mapping, omitting every schema field. -/
theorem parse_profile_success_all_fields :
    (∀ (kvs : List (String × JVal)) (rest : List SvcResult) (s : String),
      dgetD kvs "age" (.jstr "") = .jstr s →
      (parse_profile_info true (SvcResult.parsed (.jobj kvs) :: rest)).map Prod.fst =
        profileFields) ∧
    (∀ (key : Bool) (rest : List SvcResult),
      parse_profile_info key (SvcResult.fail :: rest) = []) := by
  refine ⟨?_, parse_profile_fail⟩
  intro kvs rest s hAge
  rw [parse_profile_success kvs rest s hAge]
  unfold profilePost
  exact fieldsMap_keys _

/-- C2 witness: a concrete successful response produces a record keyed by
exactly the schema fields. -/
theorem parse_profile_success_all_fields_witness :
    (parse_profile_info true [SvcResult.parsed (.jobj [("name", JVal.jstr "X")])]).map
      Prod.fst = profileFields :=
  parse_profile_success_all_fields.1 [("name", JVal.jstr "X")] [] "" rfl

/-- C3, counterexample: the `member_id` field is not digit-normalized — a
successful extraction whose member_id is `"tel:080-1234"` is passed through
verbatim, not normalized to `"0801234"` as the claim requires. -/
theorem member_id_not_normalized :
    dget (parse_profile_info true [SvcResult.parsed (JVal.jobj
        [("member_id", JVal.jstr "tel:080-1234"), ("age", JVal.jstr "32歳")])]) "member_id" =
      some (JVal.jstr "tel:080-1234") ∧
    dget (parse_profile_info true [SvcResult.parsed (JVal.jobj
        [("member_id", JVal.jstr "tel:080-1234"), ("age", JVal.jstr "32歳")])]) "member_id" ≠
      some (JVal.jstr "0801234") := by
  refine ⟨rfl, ?_⟩
  rw [show dget (parse_profile_info true [SvcResult.parsed (JVal.jobj
      [("member_id", JVal.jstr "tel:080-1234"), ("age", JVal.jstr "32歳")])]) "member_id" =
      some (JVal.jstr "tel:080-1234") from rfl]
  intro h
  injection h with h1
  injection h1 with h2
  exact absurd h2 (by decide)

/-- C3 (amended): normalization strips non-digits only for the `age` field
(`"32歳"` normalizes to `"32"`, digit-only strings are unchanged,
`"tel:080-1234"` would digit-strip to `"0801234"` had it been applied);
`member_id` is passed through verbatim; and only the `experience` field is
serialized to a single string (via `expFlatten`) when its value is a compound
list/object. -/
theorem normalization_age_and_experience_only :
    (∀ (kvs : List (String × JVal)) (rest : List SvcResult) (s : String),
      dgetD kvs "age" (.jstr "") = .jstr s →
      dget (parse_profile_info true (SvcResult.parsed (.jobj kvs) :: rest)) "age" =
        some (.jstr (digitsOnly s)) ∧
      dget (parse_profile_info true (SvcResult.parsed (.jobj kvs) :: rest)) "member_id" =
        some (dgetD kvs "member_id" (.jstr "")) ∧
      (∀ v : JVal, dget kvs "experience" = some v →
        dget (parse_profile_info true (SvcResult.parsed (.jobj kvs) :: rest)) "experience" =
          some (.jstr (expFlatten v)))) ∧
    (∀ s : String, (∀ c ∈ s.data, c.isDigit) → digitsOnly s = s) ∧
    digitsOnly "tel:080-1234" = "0801234" ∧
    digitsOnly "32歳" = "32" := by
  refine ⟨?_, ?_, rfl, rfl⟩
  · intro kvs rest s hAge
    rw [parse_profile_success kvs rest s hAge]
    exact ⟨dget_profilePost_age kvs s, dget_profilePost_member kvs s,
      fun v hv => dget_profilePost_exp kvs s v hv⟩
  · intro s hs
    unfold digitsOnly
    rw [List.filter_eq_self.mpr hs]

/-- C3 witness: a concrete extraction showing the age digit-strip, the
experience flattening, and idempotence on a digit-only string. -/
theorem normalization_age_and_experience_only_witness :
    dget (parse_profile_info true [SvcResult.parsed (.jobj
        [("age", JVal.jstr "32歳"), ("experience", JVal.jarr [JVal.jstr "A医院"])])]) "age" =
      some (.jstr (digitsOnly "32歳")) ∧
    dget (parse_profile_info true [SvcResult.parsed (.jobj
        [("age", JVal.jstr "32歳"), ("experience", JVal.jarr [JVal.jstr "A医院"])])])
      "experience" = some (.jstr (expFlatten (JVal.jarr [JVal.jstr "A医院"]))) ∧
    digitsOnly "7700" = "7700" := by
  have h := normalization_age_and_experience_only.1
    [("age", JVal.jstr "32歳"), ("experience", JVal.jarr [JVal.jstr "A医院"])] [] "32歳" rfl
  exact ⟨h.1, h.2.2 (JVal.jarr [JVal.jstr "A医院"]) rfl,
    normalization_age_and_experience_only.2.1 "7700" (by decide)⟩

/-- C4, counterexample: when the model-assisted extraction fails, the merged
record lacks the schema field `name` entirely — its value is neither the
model-assisted value, nor the pattern-based value, nor the empty string. -/
theorem merge_drops_fields_counterexample :
    dget (buildMergedData "A".data "B".data (parse_profile_info true [SvcResult.fail]))
      "name" = none := rfl

/-- C4 (amended): the merged record is a plain key-wise union —
`hospital_name` and `media_name` come from the pattern extractors, and every
schema field is looked up verbatim in the model-assisted mapping (even when
empty there), with no per-field non-empty-preference fallback. -/
theorem merge_plain_union :
    ∀ (hosp media : List Char) (parsed : List (String × JVal)),
      dget (buildMergedData hosp media parsed) "hospital_name" =
        some (JVal.jstr (String.mk hosp)) ∧
      dget (buildMergedData hosp media parsed) "media_name" =
        some (JVal.jstr (String.mk media)) ∧
      ∀ k ∈ profileFields, dget (buildMergedData hosp media parsed) k = dget parsed k := by
  intro hosp media parsed
  refine ⟨rfl, rfl, ?_⟩
  intro k hk
  fin_cases hk <;> rfl

/-- C4 witness: the merged `name` field equals the model-assisted mapping's
`name` entry at a concrete input. -/
theorem merge_plain_union_witness :
    dget (buildMergedData "A".data "B".data [("name", JVal.jstr "X")]) "name" =
      dget [("name", JVal.jstr "X")] "name" :=
  (merge_plain_union "A".data "B".data [("name", JVal.jstr "X")]).2.2 "name" (by decide)

theorem lookupSheet_setSheet_self (sheets : Sheets) (title : String) (w : Worksheet) :
    lookupSheet (setSheet sheets title w) title = some w := by
  induction sheets with
  | nil => simp [setSheet, lookupSheet]
  | cons p rest ih =>
    obtain ⟨t2, w2⟩ := p
    by_cases h : t2 = title
    · simp [setSheet, lookupSheet, h]
    · simp [setSheet, lookupSheet, h, ih]

theorem headD_decomp_of_rowValues1 (ws : Worksheet) (h : rowValues1 ws = expectedHeader) :
    ∃ z, ws.headD [] = expectedHeader ++ z := by
  refine ⟨((ws.headD []).reverse.takeWhile (· = "")).reverse, ?_⟩
  rw [← h]
  unfold rowValues1
  rw [← List.reverse_append, List.takeWhile_append_dropWhile, List.reverse_reverse]

theorem take11_of_rowValues1 (ws : Worksheet) (h : rowValues1 ws = expectedHeader) :
    (ws.headD []).take 11 = expectedHeader := by
  obtain ⟨z, hz⟩ := headD_decomp_of_rowValues1 ws h
  rw [hz, show (11 : Nat) = expectedHeader.length from rfl, List.take_left]

theorem ensure_header_spec (ws : Worksheet) :
    ensure_header ws ≠ [] ∧ ((ensure_header ws).headD []).take 11 = expectedHeader := by
  unfold ensure_header
  by_cases h : rowValues1 ws = expectedHeader
  · rw [if_pos h]
    refine ⟨?_, take11_of_rowValues1 ws h⟩
    intro hnil
    rw [hnil] at h
    exact absurd h (by decide)
  · rw [if_neg h]
    unfold updateA1K1
    refine ⟨List.cons_ne_nil _ _, ?_⟩
    rw [List.headD_cons, show (11 : Nat) = expectedHeader.length from rfl, List.take_left]

theorem get_or_create_spec (sheets : Sheets) (title : String) :
    (get_or_create_worksheet sheets title).1 ≠ [] ∧
      ((get_or_create_worksheet sheets title).1.headD []).take 11 = expectedHeader := by
  unfold get_or_create_worksheet
  cases hl : lookupSheet sheets title with
  | some ws => exact ensure_header_spec ws
  | none => exact ensure_header_spec [expectedHeader]

/-- C5, counterexample: accessing an existing partition whose rows are
`[["junk"], ["junk2"]]` rewrites only row 1 with the literal header labels and
leaves row 2 untouched; no cell of the result holds a formula (none begins with
`'='`), so there is no fixed pair of rows with a live row-count formula above
the header labels as the claim states. -/
theorem header_single_row_counterexample :
    (get_or_create_worksheet [("ch", [["junk"], ["junk2"]])] "ch").1 =
      [expectedHeader, ["junk2"]] ∧
    ((get_or_create_worksheet [("ch", [["junk"], ["junk2"]])] "ch").1.all
      fun row => row.all fun cell => !(cell.data.headD ' ' == '=')) = true := by
  constructor
  · rfl
  · rfl

/-- C5 (amended): on every access — creation for a new routing key and every
subsequent lookup — the router asserts the expected header labels in the single
first row of the partition (its first eleven cells equal `expectedHeader`,
overwritten when they differ); there is no row-count-formula row. -/
theorem header_asserted_on_every_access :
    ∀ (sheets : Sheets) (title : String),
      (get_or_create_worksheet sheets title).1 ≠ [] ∧
      ((get_or_create_worksheet sheets title).1.headD []).take 11 = expectedHeader :=
  get_or_create_spec

theorem upToClose_append (seg post : List Char) (hcl : '】' ∉ seg) :
    upToClose (seg ++ '】' :: post) = some seg := by
  induction seg with
  | nil => rfl
  | cons c cs ih =>
    have hc : ¬ c = '】' := fun h => hcl (h ▸ List.mem_cons_self c cs)
    have hcs : '】' ∉ cs := fun h => hcl (List.mem_cons_of_mem c h)
    rw [List.cons_append]
    have hstep : upToClose (c :: (cs ++ '】' :: post)) =
        ((upToClose (cs ++ '】' :: post)).map fun x => c :: x) := by
      show (if c = '】' then some [] else (upToClose (cs ++ '】' :: post)).map fun x => c :: x) =
        ((upToClose (cs ++ '】' :: post)).map fun x => c :: x)
      rw [if_neg hc]
    rw [hstep, ih hcs]
    rfl

theorem upToClose_some (r : List Char) : ∀ s : List Char, upToClose r = some s →
    ∃ post, r = s ++ '】' :: post ∧ '】' ∉ s := by
  induction r with
  | nil => intro s h; exact absurd h (by simp [upToClose])
  | cons c rest ih =>
    intro s h
    by_cases hc : c = '】'
    · subst hc
      have h2 : some ([] : List Char) = some s := h
      obtain rfl := Option.some.inj h2
      exact ⟨rest, rfl, by simp⟩
    · have h2 : ((upToClose rest).map fun x => c :: x) = some s := by
        have h3 : (if c = '】' then some [] else (upToClose rest).map fun x => c :: x) =
            some s := h
        rwa [if_neg hc] at h3
      cases hr : upToClose rest with
      | none => rw [hr] at h2; exact absurd h2 (by simp)
      | some s2 =>
        rw [hr] at h2
        have h3 : some (c :: s2) = some s := h2
        obtain rfl := Option.some.inj h3
        obtain ⟨post, hrest, hmem⟩ := ih s2 hr
        refine ⟨post, by rw [hrest, List.cons_append], ?_⟩
        intro hm
        rcases List.mem_cons.mp hm with h1 | h1
        · exact hc h1.symm
        · exact hmem h1

theorem findBracketSeg_append (pre seg post : List Char) (hpre : '【' ∉ pre)
    (hseg : seg ≠ []) (hcl : '】' ∉ seg) :
    findBracketSeg (pre ++ '【' :: (seg ++ '】' :: post)) = some seg := by
  induction pre with
  | nil =>
    rw [List.nil_append]
    have hstep : findBracketSeg ('【' :: (seg ++ '】' :: post)) =
        (match upToClose (seg ++ '】' :: post) with
          | some seg2 =>
            if seg2 = [] then findBracketSeg (seg ++ '】' :: post) else some seg2
          | none => none) := rfl
    rw [hstep, upToClose_append seg post hcl]
    show (if seg = [] then findBracketSeg (seg ++ '】' :: post) else some seg) = some seg
    rw [if_neg hseg]
  | cons c cs ih =>
    have hc : ¬ c = '【' := fun h => hpre (h ▸ List.mem_cons_self c cs)
    have hcs : '【' ∉ cs := fun h => hpre (List.mem_cons_of_mem c h)
    rw [List.cons_append]
    have hstep : findBracketSeg (c :: (cs ++ '【' :: (seg ++ '】' :: post))) =
        findBracketSeg (cs ++ '【' :: (seg ++ '】' :: post)) := by
      show (if c = '【' then
          (match upToClose (cs ++ '【' :: (seg ++ '】' :: post)) with
            | some seg2 =>
              if seg2 = [] then findBracketSeg (cs ++ '【' :: (seg ++ '】' :: post))
              else some seg2
            | none => none)
        else findBracketSeg (cs ++ '【' :: (seg ++ '】' :: post))) =
        findBracketSeg (cs ++ '【' :: (seg ++ '】' :: post))
      rw [if_neg hc]
    rw [hstep]
    exact ih hcs

theorem findBracketSeg_some (t : List Char) : ∀ s : List Char, findBracketSeg t = some s →
    ∃ pre post, t = pre ++ '【' :: (s ++ '】' :: post) ∧ s ≠ [] ∧ '】' ∉ s := by
  induction t with
  | nil => intro s h; exact absurd h (by simp [findBracketSeg])
  | cons c rest ih =>
    intro s h
    by_cases hc : c = '【'
    · subst hc
      have h2 : (match upToClose rest with
          | some seg => if seg = [] then findBracketSeg rest else some seg
          | none => (none : Option (List Char))) = some s := h
      cases hu : upToClose rest with
      | none => rw [hu] at h2; exact absurd h2 (by simp)
      | some seg =>
        rw [hu] at h2
        have h3 : (if seg = [] then findBracketSeg rest else some seg) = some s := h2
        by_cases hemp : seg = []
        · rw [if_pos hemp] at h3
          obtain ⟨pre, post, hrest, hne, hmem⟩ := ih s h3
          exact ⟨'【' :: pre, post, by rw [hrest, List.cons_append], hne, hmem⟩
        · rw [if_neg hemp] at h3
          obtain rfl := Option.some.inj h3
          obtain ⟨post, hrest, hmem⟩ := upToClose_some rest seg hu
          exact ⟨[], post, by rw [hrest, List.nil_append], hemp, hmem⟩
    · have h2 : findBracketSeg rest = some s := by
        have h3 : (if c = '【' then
            (match upToClose rest with
              | some seg => if seg = [] then findBracketSeg rest else some seg
              | none => none)
          else findBracketSeg rest) = some s := h
        rwa [if_neg hc] at h3
      obtain ⟨pre, post, hrest, hne, hmem⟩ := ih s h2
      exact ⟨c :: pre, post, by rw [hrest, List.cons_append], hne, hmem⟩

/-- C6: for every text containing a (nonempty, first) bracket-delimited
segment `【...】`, `extract_hospital_name` returns the segment's contents
trimmed with a single trailing `様` honorific stripped; for text with no such
segment it returns the empty string; `"【ABC Clinic様】"` yields
`"ABC Clinic"`.  As a Lean function of the text it is pure and
deterministic. -/
theorem extract_hospital_name_spec :
    (∀ (pre seg post : List Char), '【' ∉ pre → seg ≠ [] → '】' ∉ seg →
      extract_hospital_name (pre ++ '【' :: (seg ++ '】' :: post)) =
        stripSama (trimChars seg)) ∧
    (∀ t : List Char,
      (¬ ∃ pre seg post, t = pre ++ '【' :: (seg ++ '】' :: post) ∧ seg ≠ [] ∧ '】' ∉ seg) →
      extract_hospital_name t = []) ∧
    extract_hospital_name "【ABC Clinic様】".data = "ABC Clinic".data := by
  refine ⟨?_, ?_, rfl⟩
  · intro pre seg post hpre hseg hcl
    unfold extract_hospital_name
    rw [findBracketSeg_append pre seg post hpre hseg hcl]
  · intro t hno
    unfold extract_hospital_name
    cases hf : findBracketSeg t with
    | none => rfl
    | some s =>
      obtain ⟨pre, post, ht, hne, hmem⟩ := findBracketSeg_some t s hf
      exact absurd ⟨pre, s, post, ht, hne, hmem⟩ hno

/-- C6 witness: both branches applied at concrete inputs. -/
theorem extract_hospital_name_spec_witness :
    extract_hospital_name ("xy".data ++ '【' :: ("AB様".data ++ '】' :: "z".data)) =
      stripSama (trimChars "AB様".data) ∧
    extract_hospital_name "no brackets here".data = [] :=
  ⟨extract_hospital_name_spec.1 "xy".data "AB様".data "z".data (by decide) (by decide)
      (by decide),
    extract_hospital_name_spec.2.1 "no brackets here".data (by
      rintro ⟨pre, seg, post, ht, hne, hmem⟩
      have hx : '【' ∈ "no brackets here".data := by
        rw [ht]
        exact List.mem_append_right pre (List.mem_cons_self _ _)
      exact absurd hx (by decide))⟩

theorem isPrefixOf_self (l : List Char) : l.isPrefixOf l = true := by
  induction l with
  | nil => rfl
  | cons c rest ih => simp [List.isPrefixOf, ih]

theorem checkTail_cons (c : Char) (rest : List Char) :
    checkTail (c :: rest) =
      (!(c == '\n') && (mediaTail.isPrefixOf rest || checkTail rest)) := rfl

theorem g1Scan_cons (acc : List Char) (c : Char) (rest : List Char) :
    g1Scan acc (c :: rest) =
      if yori.isPrefixOf (c :: rest) && checkTail ((c :: rest).drop 2) then some acc.reverse
      else if c = '\n' then none
      else g1Scan (c :: acc) rest := rfl

theorem containsSub_cons (n : List Char) (c : Char) (rest : List Char) :
    containsSub n (c :: rest) = (n.isPrefixOf (c :: rest) || containsSub n rest) := rfl

theorem mediaSearch_cons (c : Char) (rest : List Char) :
    mediaSearch (c :: rest) =
      (if c = '\n' then mediaSearch rest
       else match g1Scan [c] rest with
         | some g1 => some g1
         | none => mediaSearch rest) := rfl

theorem isPrefixOf_pair (c d : Char) (w : List Char) :
    yori.isPrefixOf (c :: d :: w) = (('よ' == c) && ('り' == d)) := by
  show (('よ' == c) && List.isPrefixOf ['り'] (d :: w)) = (('よ' == c) && ('り' == d))
  simp [List.isPrefixOf]

theorem checkTail_append (Y : List Char) (hY : Y ≠ []) (hYn : ∀ c ∈ Y, ¬ c = '\n') :
    checkTail (Y ++ mediaTail) = true := by
  induction Y with
  | nil => exact absurd rfl hY
  | cons y ys ih =>
    have hy : (y == '\n') = false :=
      beq_eq_false_iff_ne.mpr (hYn y (List.mem_cons_self y ys))
    rw [List.cons_append, checkTail_cons, hy]
    cases ys with
    | nil => simp [isPrefixOf_self]
    | cons y2 ys2 =>
      have ihv := ih (List.cons_ne_nil y2 ys2)
        (fun c hc => hYn c (List.mem_cons_of_mem y hc))
      rw [ihv]
      simp

theorem g1Scan_media (Y : List Char) (hY : Y ≠ []) (hYn : ∀ c ∈ Y, ¬ c = '\n') :
    ∀ (X2 acc : List Char), (∀ c ∈ X2, ¬ c = '\n') → containsSub yori X2 = false →
      g1Scan acc (X2 ++ yori ++ (Y ++ mediaTail)) = some (acc.reverse ++ X2) := by
  intro X2
  induction X2 with
  | nil =>
    intro acc _ _
    rw [List.nil_append]
    show g1Scan acc ('よ' :: 'り' :: (Y ++ mediaTail)) = some (acc.reverse ++ [])
    rw [g1Scan_cons]
    have hcond : (yori.isPrefixOf ('よ' :: 'り' :: (Y ++ mediaTail)) &&
        checkTail (('よ' :: 'り' :: (Y ++ mediaTail)).drop 2)) = true := by
      rw [isPrefixOf_pair]
      show ((('よ' == 'よ') && ('り' == 'り')) && checkTail (Y ++ mediaTail)) = true
      rw [checkTail_append Y hY hYn]
      simp
    rw [if_pos hcond, List.append_nil]
  | cons c X3 ih =>
    intro acc hnl hsub
    have hc : ¬ c = '\n' := hnl c (List.mem_cons_self c X3)
    have hrw : (c :: X3) ++ yori ++ (Y ++ mediaTail) =
        c :: (X3 ++ yori ++ (Y ++ mediaTail)) := by
      rw [List.cons_append, List.cons_append]
    rw [hrw, g1Scan_cons]
    have hsub3 : containsSub yori X3 = false := by
      rw [containsSub_cons] at hsub
      exact (Bool.or_eq_false_iff.mp hsub).2
    have hpf : yori.isPrefixOf (c :: (X3 ++ yori ++ (Y ++ mediaTail))) = false := by
      cases X3 with
      | nil =>
        show yori.isPrefixOf (c :: 'よ' :: 'り' :: (Y ++ mediaTail)) = false
        rw [isPrefixOf_pair]
        simp
      | cons d X4 =>
        have hnp : yori.isPrefixOf (c :: d :: X4) = false := by
          rw [containsSub_cons] at hsub
          exact (Bool.or_eq_false_iff.mp hsub).1
        rw [isPrefixOf_pair] at hnp
        have hrw2 : (d :: X4) ++ yori ++ (Y ++ mediaTail) =
            d :: (X4 ++ yori ++ (Y ++ mediaTail)) := by
          rw [List.cons_append, List.cons_append]
        rw [hrw2, isPrefixOf_pair]
        exact hnp
    have hcond : (yori.isPrefixOf (c :: (X3 ++ yori ++ (Y ++ mediaTail))) &&
        checkTail ((c :: (X3 ++ yori ++ (Y ++ mediaTail))).drop 2)) = false := by
      rw [hpf, Bool.false_and]
    rw [if_neg (by rw [hcond]; exact Bool.false_ne_true), if_neg hc]
    rw [ih (c :: acc) (fun x hx => hnl x (List.mem_cons_of_mem c hx)) hsub3]
    simp

theorem mediaSearch_media (X Y : List Char) (hX : X ≠ []) (hXn : ∀ c ∈ X, ¬ c = '\n')
    (hsub : containsSub yori X = false) (hY : Y ≠ []) (hYn : ∀ c ∈ Y, ¬ c = '\n') :
    mediaSearch (X ++ yori ++ (Y ++ mediaTail)) = some X := by
  cases X with
  | nil => exact absurd rfl hX
  | cons x X2 =>
    have hx : ¬ x = '\n' := hXn x (List.mem_cons_self x X2)
    have hrw : (x :: X2) ++ yori ++ (Y ++ mediaTail) =
        x :: (X2 ++ yori ++ (Y ++ mediaTail)) := by
      rw [List.cons_append, List.cons_append]
    rw [hrw, mediaSearch_cons, if_neg hx]
    have hsub2 : containsSub yori X2 = false := by
      rw [containsSub_cons] at hsub
      exact (Bool.or_eq_false_iff.mp hsub).2
    rw [g1Scan_media Y hY hYn X2 [x] (fun c hc => hXn c (List.mem_cons_of_mem x hc)) hsub2]
    rfl

/-- C7: for every text of the form `<X>より<Y>の応募がございました。` (X, Y
nonempty, newline-free, より not inside X), `extract_media_name` returns X
trimmed; when the pattern does not match it falls back to the model-assisted
single-field extraction `parse_media_name_with_gpt`, whose failure yields the
empty string (modelled totally, so nothing is raised);
`"JobMedley より 歯科医師 の応募がございました。"` yields `"JobMedley"`. -/
theorem extract_media_name_spec :
    (∀ (X Y : List Char) (key : Bool) (svc : Option (List Char)),
      X ≠ [] → (∀ c ∈ X, ¬ c = '\n') → containsSub yori X = false →
      Y ≠ [] → (∀ c ∈ Y, ¬ c = '\n') →
      extract_media_name key svc (X ++ yori ++ (Y ++ mediaTail)) = trimChars X) ∧
    (∀ (t : List Char) (key : Bool) (svc : Option (List Char)), mediaSearch t = none →
      extract_media_name key svc t = parse_media_name_with_gpt key svc) ∧
    (∀ key : Bool, parse_media_name_with_gpt key none = []) ∧
    (∀ (key : Bool) (svc : Option (List Char)),
      extract_media_name key svc "JobMedley より 歯科医師 の応募がございました。".data =
        "JobMedley".data) := by
  refine ⟨?_, ?_, ?_, ?_⟩
  · intro X Y key svc hX hXn hsub hY hYn
    unfold extract_media_name
    rw [mediaSearch_media X Y hX hXn hsub hY hYn]
  · intro t key svc h
    unfold extract_media_name
    rw [h]
  · intro key
    cases key <;> rfl
  · intro key svc
    rfl

/-- C7 witness: the pattern branch and the fallback branch at concrete
inputs. -/
theorem extract_media_name_spec_witness :
    extract_media_name true none ("Indeed".data ++ yori ++ ("歯科".data ++ mediaTail)) =
      trimChars "Indeed".data ∧
    extract_media_name true none "abc".data = parse_media_name_with_gpt true none :=
  ⟨extract_media_name_spec.1 "Indeed".data "歯科".data true none (by decide) (by decide)
      (by decide) (by decide) (by decide),
    extract_media_name_spec.2.1 "abc".data true none rfl⟩

/-- C8: for every triggered message whose merged record carries both a falsy
(empty) `name` and a falsy (empty) `member_id`, the handler exits silently —
outcome `silent`, no reply sent — and the spreadsheet state is returned
unchanged (no row written). -/
theorem no_signal_silent_exit :
    ∀ (text : String) (chan : Option String) (key : Bool) (prof : List SvcResult)
      (media : Option (List Char)) (fault : Option String) (sheets : Sheets) (v1 v2 : JVal),
      containsSub triggerText.data text.data = true →
      dget (mergedRecord text chan key prof media) "name" = some v1 → truthy v1 = false →
      dget (mergedRecord text chan key prof media) "member_id" = some v2 →
      truthy v2 = false →
      handle_message_events text chan key prof media fault sheets =
        (Outcome.silent, sheets) := by
  intro text chan key prof media fault sheets v1 v2 htrig hname hv1 hmid hv2
  unfold handle_message_events
  rw [if_pos htrig]
  simp only [hname, hmid, hv1, hv2]
  rfl

/-- C8 witness: a concrete triggered no-signal message exits silently. -/
theorem no_signal_silent_exit_witness :
    handle_message_events "応募がございました。" none true
      [SvcResult.parsed (.jobj [("name", JVal.jstr ""), ("member_id", JVal.jstr "")])]
      none none [] = (Outcome.silent, []) :=
  no_signal_silent_exit "応募がございました。" none true
    [SvcResult.parsed (.jobj [("name", JVal.jstr ""), ("member_id", JVal.jstr "")])]
    none none [] (JVal.jstr "") (JVal.jstr "") rfl rfl rfl rfl rfl

/-- C9: a faulted spreadsheet write surfaces the error unchanged to the
caller with the state untouched (the writer catches nothing and retries
nothing), and the trigger handler then posts the threaded failure reply
containing the error description while the spreadsheet state stays as it was
(the record is dropped, the write is not re-attempted). -/
theorem write_failure_surfaced_no_retry :
    (∀ (sheets : Sheets) (data : List (String × JVal)) (e : String),
      write_to_spreadsheet (some e) sheets data = Except.error e) ∧
    (∀ (text : String) (chan : Option String) (key : Bool) (prof : List SvcResult)
      (media : Option (List Char)) (sheets : Sheets) (e : String) (v : JVal),
      containsSub triggerText.data text.data = true →
      dget (mergedRecord text chan key prof media) "name" = some v → truthy v = true →
      handle_message_events text chan key prof media (some e) sheets =
        (Outcome.ackFailure (sayFailText ++ e), sheets)) := by
  refine ⟨fun sheets data e => rfl, ?_⟩
  intro text chan key prof media sheets e v htrig hname hv
  unfold handle_message_events
  rw [if_pos htrig]
  simp only [hname, hv]
  rfl

/-- C9 witness: a concrete faulted write and a concrete handler run ending in
the failure reply. -/
theorem write_failure_surfaced_no_retry_witness :
    write_to_spreadsheet (some "quota") [] [] = Except.error "quota" ∧
    handle_message_events "応募がございました。" none true
      [SvcResult.parsed (.jobj [("name", JVal.jstr "山田")])] none (some "boom") [] =
      (Outcome.ackFailure (sayFailText ++ "boom"), []) :=
  ⟨write_failure_surfaced_no_retry.1 [] [] "quota",
    write_failure_surfaced_no_retry.2 "応募がございました。" none true
      [SvcResult.parsed (.jobj [("name", JVal.jstr "山田")])] none [] "boom"
      (JVal.jstr "山田") rfl rfl rfl⟩

/-- C10: when the channel-name lookup fails the merged record's routing key
defaults to `"UnknownChannel"`; a record carrying no channel name is appended
as the last row of the `"UnknownChannel"` partition (so all such records share
that single partition); and the handler still completes successfully — the run
is not aborted and the record is not dropped. -/
theorem unknown_channel_fallback_routing :
    (∀ (text : String) (key : Bool) (prof : List SvcResult) (media : Option (List Char)),
      dget (mergedRecord text none key prof media) "channel_name" =
        some (JVal.jstr "UnknownChannel")) ∧
    (∀ (sheets : Sheets) (data : List (String × JVal)),
      dget data "channel_name" = none →
      write_to_spreadsheet none sheets data =
        Except.ok (setSheet (get_or_create_worksheet sheets "UnknownChannel").2
          "UnknownChannel"
          ((get_or_create_worksheet sheets "UnknownChannel").1 ++ [newRowOf data])) ∧
      lookupSheet (setSheet (get_or_create_worksheet sheets "UnknownChannel").2
          "UnknownChannel"
          ((get_or_create_worksheet sheets "UnknownChannel").1 ++ [newRowOf data]))
        "UnknownChannel" =
        some ((get_or_create_worksheet sheets "UnknownChannel").1 ++ [newRowOf data]) ∧
      ((get_or_create_worksheet sheets "UnknownChannel").1 ++ [newRowOf data]).getLast? =
        some (newRowOf data)) ∧
    (∀ (text : String) (key : Bool) (prof : List SvcResult) (media : Option (List Char))
      (sheets : Sheets) (v : JVal),
      containsSub triggerText.data text.data = true →
      dget (mergedRecord text none key prof media) "name" = some v → truthy v = true →
      handle_message_events text none key prof media none sheets =
        (Outcome.ackSuccess successMsg,
          setSheet (get_or_create_worksheet sheets "UnknownChannel").2 "UnknownChannel"
            ((get_or_create_worksheet sheets "UnknownChannel").1 ++
              [newRowOf (mergedRecord text none key prof media)])) ∧
      lookupSheet (setSheet (get_or_create_worksheet sheets "UnknownChannel").2
          "UnknownChannel"
          ((get_or_create_worksheet sheets "UnknownChannel").1 ++
            [newRowOf (mergedRecord text none key prof media)])) "UnknownChannel" ≠
        none) := by
  refine ⟨?_, ?_, ?_⟩
  · intro text key prof media
    exact dget_mergedRecord_channel text none key prof media
  · intro sheets data h
    have htitle : sheetTitleOf data = "UnknownChannel" := by
      unfold sheetTitleOf
      rw [h]
    refine ⟨?_, ?_, List.getLast?_concat _⟩
    · unfold write_to_spreadsheet
      rw [htitle]
    · rw [lookupSheet_setSheet_self]
  · intro text key prof media sheets v htrig hname hv
    have htitle : sheetTitleOf (mergedRecord text none key prof media) = "UnknownChannel" := by
      unfold sheetTitleOf
      rw [dget_mergedRecord_channel]
      rfl
    constructor
    · unfold handle_message_events
      rw [if_pos htrig]
      simp only [hname, hv]
      unfold runWrite write_to_spreadsheet
      rw [htitle]
      rfl
    · rw [lookupSheet_setSheet_self]
      exact Option.some_ne_none _

/-- C10 witness: the three branches at concrete inputs. -/
theorem unknown_channel_fallback_routing_witness :
    dget (mergedRecord "応募がございました。" none true
        [SvcResult.parsed (.jobj [("name", JVal.jstr "山田")])] none) "channel_name" =
      some (JVal.jstr "UnknownChannel") ∧
    write_to_spreadsheet none [] [("name", JVal.jstr "山田")] =
      Except.ok (setSheet (get_or_create_worksheet [] "UnknownChannel").2 "UnknownChannel"
        ((get_or_create_worksheet [] "UnknownChannel").1 ++
          [newRowOf [("name", JVal.jstr "山田")]])) ∧
    handle_message_events "応募がございました。" none true
        [SvcResult.parsed (.jobj [("name", JVal.jstr "山田")])] none none [] =
      (Outcome.ackSuccess successMsg,
        setSheet (get_or_create_worksheet [] "UnknownChannel").2 "UnknownChannel"
          ((get_or_create_worksheet [] "UnknownChannel").1 ++
            [newRowOf (mergedRecord "応募がございました。" none true
              [SvcResult.parsed (.jobj [("name", JVal.jstr "山田")])] none)])) :=
  ⟨(unknown_channel_fallback_routing.1 "応募がございました。" true
      [SvcResult.parsed (.jobj [("name", JVal.jstr "山田")])] none),
    (unknown_channel_fallback_routing.2.1 [] [("name", JVal.jstr "山田")] rfl).1,
    (unknown_channel_fallback_routing.2.2 "応募がございました。" true
      [SvcResult.parsed (.jobj [("name", JVal.jstr "山田")])] none [] (JVal.jstr "山田")
      rfl rfl rfl).1⟩

end SlackSpreadsheet
